import Mathlib

/-! Shallow embedding of the Plan-Execute-Evaluate agent core: the planning
module (src/planning.py), the execution engine (src/execution.py), the
evaluation module (src/evaluation.py) and the orchestrator run loop
(src/agent.py).  External collaborators (the model gateway, json decoding,
clock, tools) are abstracted as explicit inputs; everything below them is
translated from the source. -/

namespace AgentCore

/-- A decoded Python/JSON value, the result of json.loads on the gateway
text.  The json decoding step itself is external library code; the embedding
receives its outcome (Except Unit PyVal: error means json.JSONDecodeError,
which also covers the code-fence stripping that precedes it, since that
stripping cannot itself fail). -/
inductive PyVal where
  | none
  | bool (b : Bool)
  | int (n : Int)
  | str (s : String)
  | list (xs : List PyVal)
  | dict (kvs : List (String × PyVal))

/-- Python exceptions the embedded code can raise or propagate. -/
inductive PyExc where
  | jsonDecodeError
  | keyError
  | attributeError
  | typeError
  | validationError
  | unboundLocalError
deriving DecidableEq

/-- Python dict lookup d.get(k): some value when the key is present.  json
objects decoded by json.loads have each key at most once, so first-match is
the dict semantics. -/
def dictGet : PyVal → String → Option PyVal
  | .dict kvs, k => (kvs.find? (fun kv => kv.1 == k)).map (fun kv => kv.2)
  | _, _ => Option.none

/-- Python d.get(k, default). -/
def dictGetD (v : PyVal) (k : String) (d : PyVal) : PyVal :=
  (dictGet v k).getD d

/-- The numeric value of an ASCII digit character. -/
def charVal (c : Char) : Nat :=
  c.toNat - 48

/-- The value of a nonempty all-digit character run, most significant digit
first; Option.none when empty or a non-digit appears, as Python int(s)
raises there.  Exotic forms Python also accepts (surrounding whitespace,
underscores, non-ASCII digits) are outside the model; no claim uses them. -/
def digitsVal (cs : List Char) : Option Nat :=
  if cs ≠ [] ∧ cs.all Char.isDigit then
    some (cs.foldl (fun n c => n * 10 + charVal c) 0)
  else Option.none

/-- Python int(s) on an optionally signed decimal numeral (codepoint 45 is
the minus sign, 43 the plus sign). -/
def parseIntStr (s : String) : Option Int :=
  match s.toList with
  | [] => Option.none
  | c :: rest =>
    if c.toNat = 45 then (digitsVal rest).map (fun n => -(n : Int))
    else if c.toNat = 43 then (digitsVal rest).map (fun n => (n : Int))
    else (digitsVal (c :: rest)).map (fun n => (n : Int))

/-- pydantic v1 validation of an int field: ints pass, bools coerce through
int(True) = 1, numeric strings coerce through int(s); everything else fails
validation.  Floats do not occur (PyVal carries no float; no claim needs
them). -/
def asInt : PyVal → Except PyExc Int
  | .int n => .ok n
  | .bool b => .ok (if b then 1 else 0)
  | .str s =>
    match parseIntStr s with
    | some n => .ok n
    | Option.none => .error .validationError
  | _ => .error .validationError

/-- pydantic v1 validation of a str field: strs pass, ints and bools coerce
through str(v); further coercions (floats, bytes) are outside the model. -/
def asStr : PyVal → Except PyExc String
  | .str s => .ok s
  | .int n => .ok (toString n)
  | .bool b => .ok (if b then "True" else "False")
  | _ => .error .validationError

/-- Python equality of a decoded value against an int, as used by the
membership test id in completed_subtasks: ints compare by value, bools as
their int value (True == 1), every other value is unequal to an int. -/
def pyEqInt (v : PyVal) (n : Int) : Bool :=
  match v with
  | .int m => m == n
  | .bool b => (if b then (1 : Int) else 0) == n
  | _ => false

/-- The value of an Except with a default, used only to totalise functions
whose error case is unreachable in the theorems that mention them. -/
def exceptGetD {α : Type} (e : Except PyExc α) (d : α) : α :=
  match e with
  | .ok a => a
  | .error _ => d

/-- Whether a decoded value is a JSON object (a Python mapping). -/
def isDictVal : PyVal → Bool
  | .dict _ => true
  | _ => false

/-- Python iteration over a decoded value, as enumerate does on the
subtasks payload: a list yields its elements, a string its one-character
substrings, a dict its keys; ints, bools and null are not iterable and
raise TypeError.  An empty string or dict therefore yields no entries at
all (and no exception). -/
def pyIter : PyVal → Except PyExc (List PyVal)
  | .list xs => .ok xs
  | .str s => .ok (s.toList.map (fun c => PyVal.str (String.singleton c)))
  | .dict kvs => .ok (kvs.map (fun kv => PyVal.str kv.1))
  | _ => .error .typeError

/-- pydantic validation of a List[int] field. -/
def asIntList : PyVal → Except PyExc (List Int)
  | .list xs => xs.mapM asInt
  | _ => .error .validationError

/-- pydantic validation of a List[str] field. -/
def asStrList : PyVal → Except PyExc (List String)
  | .list xs => xs.mapM asStr
  | _ => .error .validationError

def keyId : String := "id"

def keyDescription : String := "description"

def keyReasoning : String := "reasoning"

def keyDependencies : String := "dependencies"

def keySubtasks : String := "subtasks"

def keyStrategy : String := "strategy"

def statusPending : String := "pending"

def statusCompleted : String := "completed"

/-- SubTask (planning.py lines 8-15). -/
structure SubTask where
  id : Int
  description : String
  reasoning : String
  dependencies : List Int
  status : String
  result : Option PyVal

/-- Plan (planning.py lines 18-23). -/
structure Plan where
  goal : String
  subtasks : List SubTask
  strategy : String
  created_at : String

/-- The id expression of one parsed subtask entry: task.get(\x22id\x22, idx + 1)
(planning.py line 97). -/
def entryIdVal (idx : Nat) (task : PyVal) : PyVal :=
  dictGetD task keyId (.int ((idx : Int) + 1))

/-- The dependencies expression of one parsed entry: task.get with default []
(planning.py line 100). -/
def entryDeps (task : PyVal) : PyVal :=
  dictGetD task keyDependencies (.list [])

/-- The task[key] subscript on a parsed entry: AttributeError on a non-dict
entry (its .get call already raises before the subscript), KeyError when the
key is absent. -/
def getRequired (task : PyVal) (k : String) : Except PyExc PyVal :=
  match task with
  | .dict _ =>
    match dictGet task k with
    | some v => .ok v
    | Option.none => .error .keyError
  | _ => .error .attributeError

/-- One entry of the subtasks array turned into a SubTask, as the list
comprehension at planning.py lines 95-103 does for entry number idx.  A
non-dict entry raises AttributeError at the .get call (uncaught); a dict
without the description key raises KeyError (caught by the handler);
field validation failures raise pydantic ValidationError (uncaught). -/
def planEntryToSubTask (idx : Nat) (task : PyVal) : Except PyExc SubTask := do
  let d ← getRequired task keyDescription
  let i ← asInt (entryIdVal idx task)
  let description ← asStr d
  let reasoning ← asStr (dictGetD task keyReasoning (.str ""))
  let dependencies ← asIntList (entryDeps task)
  .ok ⟨i, description, reasoning, dependencies, statusPending, Option.none⟩

/-- The whole comprehension of planning.py lines 95-103, entry idx first. -/
def buildSubtasks (idx : Nat) : List PyVal → Except PyExc (List SubTask)
  | [] => .ok []
  | t :: ts => do
    let s ← planEntryToSubTask idx t
    let rest ← buildSubtasks (idx + 1) ts
    .ok (s :: rest)

/-- PlanningModule.create_plan (planning.py lines 39-127) after the gateway
call, over the decoded response.  maxSubtasks only appears in the prompt
text, so the body never reads it; now stands for datetime.now().isoformat().
The except handler at lines 113-127 runs only when json.loads or the
comprehension raised, and in every such path the statement
from datetime import datetime at line 105 has not executed yet; datetime is
a function-local name there, so the handler itself raises UnboundLocalError
at line 126 instead of returning the fallback plan it builds. -/
def create_plan (maxSubtasks : Nat) (goal now : String)
    (decoded : Except Unit PyVal) : Except PyExc Plan :=
  match decoded with
  | .error _ => .error .unboundLocalError
  | .ok plan_data =>
    match plan_data with
    | .dict _ =>
      match pyIter (dictGetD plan_data keySubtasks (.list [])) with
      | .ok tasks =>
        match buildSubtasks 0 tasks with
        | .ok subtasks =>
          match asStr (dictGetD plan_data keyStrategy (.str "")) with
          | .ok strat => .ok ⟨goal, subtasks, strat, now⟩
          | .error e => .error e
        | .error .keyError => .error .unboundLocalError
        | .error e => .error e
      | .error e => .error e
    | _ => .error .attributeError

/-- The single-subtask plan the except handler of create_plan builds
(planning.py lines 115-127) and would return were datetime in scope. -/
def fallbackPlan (goal now : String) : Plan :=
  ⟨goal,
   [⟨1, goal, "Direct execution of the goal", [], statusPending, Option.none⟩],
   "Direct execution", now⟩

/-- One entry in the replan comprehension (planning.py lines 176-185): same
fields as in create_plan, with status completed when the entry id is in
completed_subtasks.  The membership test at line 182 compares the raw
decoded id value (task.get) against the int list with Python equality,
before any pydantic coercion, so a numeric-string id is never marked
completed even though the id field coerces to the matching int. -/
def replanEntryToSubTask (completed : List Int) (idx : Nat) (task : PyVal) :
    Except PyExc SubTask := do
  let d ← getRequired task keyDescription
  let i ← asInt (entryIdVal idx task)
  let description ← asStr d
  let reasoning ← asStr (dictGetD task keyReasoning (.str ""))
  let dependencies ← asIntList (entryDeps task)
  .ok ⟨i, description, reasoning, dependencies,
       if completed.any (fun c => pyEqInt (entryIdVal idx task) c) then
         statusCompleted
       else statusPending,
       Option.none⟩

/-- The whole replan comprehension. -/
def buildReplanSubtasks (completed : List Int) (idx : Nat) :
    List PyVal → Except PyExc (List SubTask)
  | [] => .ok []
  | t :: ts => do
    let s ← replanEntryToSubTask completed idx t
    let rest ← buildReplanSubtasks completed (idx + 1) ts
    .ok (s :: rest)

/-- PlanningModule.replan (planning.py lines 129-197) over the decoded
response.  The except handler at lines 195-197 returns the original plan
value itself, so the caught failure paths (json decode failure, missing
description key) yield the original plan unchanged. -/
def replan (original : Plan) (completed : List Int) (now : String)
    (decoded : Except Unit PyVal) : Except PyExc Plan :=
  match decoded with
  | .error _ => .ok original
  | .ok plan_data =>
    match plan_data with
    | .dict _ =>
      match pyIter (dictGetD plan_data keySubtasks (.list [])) with
      | .ok tasks =>
        match buildReplanSubtasks completed 0 tasks with
        | .ok subtasks =>
          match asStr (dictGetD plan_data keyStrategy (.str original.strategy)) with
          | .ok strat => .ok ⟨original.goal, subtasks, strat, now⟩
          | .error e => .error e
        | .error .keyError => .ok original
        | .error e => .error e
      | .error e => .error e
    | _ => .error .attributeError

/-- The ids of a plan, in declaration order. -/
def planIds (p : Plan) : List Int :=
  p.subtasks.map (fun s => s.id)

/-- The plan invariants of the specification: at most maxSubtasks subtasks,
pairwise distinct ids, and every dependency id present among the ids. -/
def planInvariants (maxSubtasks : Nat) (p : Plan) : Prop :=
  p.subtasks.length ≤ maxSubtasks ∧ (planIds p).Nodup ∧
    ∀ s ∈ p.subtasks, ∀ d ∈ s.dependencies, d ∈ planIds p

instance (m : Nat) (p : Plan) : Decidable (planInvariants m p) := by
  unfold planInvariants
  infer_instance

/-- The entries create_plan iterates: the subtasks payload run through
Python iteration (the default when a success path exists; the default []
totalises the error case, unreachable whenever create_plan returned a
plan). -/
def subtaskEntries (v : PyVal) : List PyVal :=
  exceptGetD (pyIter (dictGetD v keySubtasks (.list []))) []

/-- The pydantic-coerced id of each entry, entry idx first: the coerced
value of task.get("id", idx + 1).  The default 0 totalises the
validation-failure case; it is unreachable whenever create_plan accepted
the entries. -/
def entryIdsInt (idx : Nat) : List PyVal → List Int
  | [] => []
  | t :: ts => exceptGetD (asInt (entryIdVal idx t)) 0 :: entryIdsInt (idx + 1) ts

/-- The pydantic-coerced dependency ids of one entry.  The default []
totalises the validation-failure case, unreachable whenever create_plan
accepted the entry. -/
def entryDepsInt (task : PyVal) : List Int :=
  exceptGetD (asIntList (entryDeps task)) []

/-- One tool invocation as extracted from the gateway response
(llm_client.extract_tool_calls): id, function name, and the outcome of
json.loads on the arguments text.  The error case is a json decode failure,
which execute_task turns into the empty argument dict; a successful decode
can be any value, a mapping or not (execution.py lines 126-129). -/
structure ToolCallReq where
  id : String
  name : String
  arguments : Except Unit PyVal

/-- One gateway completion as the executor reads it: the message content,
the finish reason, and the extracted tool calls (empty list when the
message carries none). -/
structure ModelResponse where
  content : Option String
  finish_reason : String
  tool_calls : List ToolCallReq

/-- One conversation message (the messages list of execute_task).  A tool
message holds the structured result value; json.dumps on it is external
serialisation. -/
inductive Message where
  | system (content : String)
  | user (content : String)
  | assistant (content : String) (tool_calls : List ToolCallReq)
  | tool (tool_call_id : String) (name : String) (content : PyVal)

/-- A registered tool: its name and its execute operation over the decoded
argument dict.  The registry models the final contents of the
ToolRegistry name-to-tool dict. -/
structure ToolSpec where
  name : String
  execute : List (String × PyVal) → PyVal

/-- ToolRegistry.get (tools/base.py lines 87-89). -/
def lookupTool (reg : List ToolSpec) (name : String) : Option ToolSpec :=
  reg.find? (fun t => t.name == name)

/-- One entry of the tool-call log (execution.py lines 139-143). -/
structure ToolCallRecord where
  tool : String
  args : List (String × PyVal)
  result : PyVal

/-- ExecutionResult (execution.py lines 9-22). -/
structure ExecutionResult where
  success : Bool
  output : Option String
  error : Option String
  tool_calls : List ToolCallRecord

def errorKeySuccess : String := "success"

def errorKeyError : String := "error"

/-- The error payload for an unknown tool name (execution.py lines 169-172). -/
def toolNotFoundResult (name : String) : PyVal :=
  .dict [(errorKeySuccess, .bool false),
         (errorKeyError, .str ("Tool \x27" ++ name ++ "\x27 not found"))]

/-- The argument value the executor passes to the tool: the decoded
arguments, with a json decode failure replaced by the empty dict
(execution.py lines 126-129). -/
def decodedArgs (tc : ToolCallReq) : PyVal :=
  match tc.arguments with
  | .ok v => v
  | .error _ => .dict []

/-- The body of the for-loop over tool calls (execution.py lines 122-173):
a known tool is executed on a mapping payload, recorded in the log and
answered with a tool message; an unknown tool only gets the error tool
message and the loop moves on.  A known tool whose argument value is not a
mapping makes tool.execute(**tool_args) at line 138 raise TypeError (the
double-star unpacking fails before the tool runs), which no handler in
execute_task catches. -/
def processToolCall (reg : List ToolSpec)
    (st : List Message × List ToolCallRecord) (tc : ToolCallReq) :
    Except PyExc (List Message × List ToolCallRecord) :=
  match lookupTool reg tc.name with
  | some tool =>
    match decodedArgs tc with
    | .dict kvs =>
      let result := tool.execute kvs
      .ok (st.1 ++ [Message.tool tc.id tc.name result],
           st.2 ++ [⟨tc.name, kvs, result⟩])
    | _ => .error .typeError
  | Option.none =>
    .ok (st.1 ++ [Message.tool tc.id tc.name (toolNotFoundResult tc.name)], st.2)

/-- The whole for-loop over the tool calls of one completion, first call
first; an exception from any call aborts the remainder. -/
def processToolCalls (reg : List ToolSpec) :
    List ToolCallReq → List Message × List ToolCallRecord →
    Except PyExc (List Message × List ToolCallRecord)
  | [], st => .ok st
  | tc :: rest, st => do
    let st2 ← processToolCall reg st tc
    processToolCalls reg rest st2

/-- Outcome of one iteration of the while loop: done returns from
execute_task, next continues with the grown conversation and log. -/
inductive StepResult where
  | done (res : ExecutionResult) (msgs : List Message)
  | next (msgs : List Message) (log : List ToolCallRecord)

/-- One iteration of the while loop of execute_task (execution.py
lines 99-184) over one gateway completion; an uncaught TypeError from a
tool call propagates out of the iteration. -/
def stepIter (reg : List ToolSpec) (resp : ModelResponse)
    (msgs : List Message) (log : List ToolCallRecord) :
    Except PyExc StepResult :=
  let assistantContent := resp.content.getD ""
  match resp.tool_calls with
  | [] =>
    let msgs := msgs ++ [Message.assistant assistantContent []]
    if resp.finish_reason = "stop" then
      .ok (.done ⟨true, resp.content, Option.none, log⟩ msgs)
    else
      .ok (.next msgs log)
  | tc :: tcs => do
    let st ← processToolCalls reg (tc :: tcs)
      (msgs ++ [Message.assistant assistantContent (tc :: tcs)], log)
    .ok (.next st.1 st.2)

def maxIterationsError : String := "Task execution exceeded maximum iterations"

def maxIterationsOutput : String := "Max iterations reached"

/-- The while loop of execute_task: remaining is the unused part of the
iteration budget, idx counts the gateway calls already made, so the next
completion is responses idx.  Quantifying over the response stream covers
every gateway behaviour, the loop being the only consumer of the stream.
Returns the result together with the final conversation (the messages list
the Python code mutates in place); an uncaught exception from a tool call
propagates to the caller instead. -/
def execLoop (reg : List ToolSpec) (responses : Nat → ModelResponse)
    (idx remaining : Nat) (msgs : List Message) (log : List ToolCallRecord) :
    Except PyExc (ExecutionResult × List Message) :=
  match remaining with
  | 0 => .ok (⟨false, some maxIterationsOutput, some maxIterationsError, log⟩, msgs)
  | Nat.succ r => do
    let step ← stepIter reg (responses idx) msgs log
    match step with
    | .done res ms => .ok (res, ms)
    | .next ms lg => execLoop reg responses (idx + 1) r ms lg

/-- The fixed system instruction of execute_task (execution.py lines 69-77). -/
def executorSystemPrompt : String :=
  "You are a capable AI agent that can use tools to accomplish tasks.\n\nWhen you need to use a tool:\n1. Think about which tool would be most appropriate\n2. Call the tool with the correct parameters\n3. Analyze the result\n4. Decide on the next action\n\nYou can use multiple tools in sequence to accomplish complex tasks. Always provide a final answer when the task is complete."

/-- The initial conversation of execute_task (execution.py lines 68-85),
for the call pattern the orchestrator uses (no pre-existing messages). -/
def initMessages (task : String) (context : Option String) : List Message :=
  [Message.system executorSystemPrompt,
   Message.user ("Task: " ++ task ++
     (match context with
      | some c => "\n\nContext: " ++ c
      | Option.none => ""))]

/-- ExecutionEngine.execute_task (execution.py lines 48-192) over a stream
of gateway completions.  The thinking-module call before the loop only logs
a thought and never touches the conversation, the log or the loop state, so
it is omitted. -/
def execute_task (reg : List ToolSpec) (responses : Nat → ModelResponse)
    (maxIterations : Nat) (task : String) (context : Option String) :
    Except PyExc (ExecutionResult × List Message) :=
  execLoop reg responses 0 maxIterations (initMessages task context) []

/-- A completion on which the loop terminates successfully: no tool calls
and finish reason stop (execution.py lines 175-184). -/
def normalStop (resp : ModelResponse) : Prop :=
  resp.tool_calls = [] ∧ resp.finish_reason = "stop"

/-- The log entry a single tool call contributes when its iteration
completes: present exactly when the registry knows the name and the
argument value is a mapping (in every completed iteration a known call has
a mapping payload, since a non-mapping one raises instead). -/
def knownRecord (reg : List ToolSpec) (tc : ToolCallReq) : Option ToolCallRecord :=
  match lookupTool reg tc.name with
  | some tool =>
    match decodedArgs tc with
    | .dict kvs => some ⟨tc.name, kvs, tool.execute kvs⟩
    | _ => Option.none
  | Option.none => Option.none

/-- The log entries one completion contributes, in call order. -/
def knownRecords (reg : List ToolSpec) (resp : ModelResponse) : List ToolCallRecord :=
  resp.tool_calls.filterMap (knownRecord reg)

/-- The number of assistant messages in a conversation: each loop iteration
appends exactly one, so this counts the iterations performed. -/
def assistantCount : List Message → Nat :=
  List.countP (fun m =>
    match m with
    | Message.assistant _ _ => true
    | _ => false)

/-- StepEvaluation (evaluation.py lines 8-16); score is the float field,
embedded as a rational. -/
structure StepEvaluation where
  step_id : Int
  step_description : String
  success : Bool
  score : ℚ
  reasoning : String
  issues : List String
  suggestions : List String
deriving DecidableEq

/-- The summary text of a FinalEvaluation.  The fallback branch formats the
overall score into an f-string; string formatting of floats is external, so
the summary is embedded as the data the string is built from. -/
inductive SummaryText where
  | fromGateway (s : String)
  | fallback (overall_success : Bool) (overall_score : ℚ)
deriving DecidableEq

/-- FinalEvaluation (evaluation.py lines 19-28). -/
structure FinalEvaluation where
  goal : String
  overall_success : Bool
  overall_score : ℚ
  step_evaluations : List StepEvaluation
  summary : SummaryText
  strengths : List String
  weaknesses : List String
  lessons_learned : List String
deriving DecidableEq

def keySummary : String := "summary"

def keyStrengths : String := "strengths"

def keyWeaknesses : String := "weaknesses"

def keyLessonsLearned : String := "lessons_learned"

/-- The arithmetic mean of a list of rationals. -/
def arithMean (xs : List ℚ) : ℚ :=
  xs.sum / xs.length

/-- The narrative part of evaluate_final (evaluation.py lines 180-215): the
parsed summary/strengths/weaknesses/lessons on success, Option.none when the
caught failure paths (json decode failure, missing key) select the fallback,
an uncaught exception otherwise (non-dict payload, field validation). -/
def parseNarrative (decoded : Except Unit PyVal) :
    Except PyExc (Option (String × List String × List String × List String)) :=
  match decoded with
  | .error _ => .ok Option.none
  | .ok eval_data =>
    match eval_data with
    | .dict _ => do
      let summary ← asStr (dictGetD eval_data keySummary (.str ""))
      let strengths ← asStrList (dictGetD eval_data keyStrengths (.list []))
      let weaknesses ← asStrList (dictGetD eval_data keyWeaknesses (.list []))
      let lessons ← asStrList (dictGetD eval_data keyLessonsLearned (.list []))
      .ok (some (summary, strengths, weaknesses, lessons))
    | _ => .error .attributeError

/-- EvaluationModule.evaluate_final (evaluation.py lines 123-215) over the
decoded narrative response.  The overall score and success flag are computed
before the gateway is consulted (lines 139-145) and are the same in the
parsed and fallback branches; final_output only flows into the prompt text,
so it does not appear.  Transport faults of the gateway propagate as
exceptions outside this model; decoded covers the content outcomes. -/
def evaluate_final (success_threshold : ℚ) (goal : String)
    (step_evaluations : List StepEvaluation)
    (decoded : Except Unit PyVal) : Except PyExc FinalEvaluation :=
  let overall_score : ℚ :=
    if step_evaluations.length ≠ 0 then
      (step_evaluations.map (fun e => e.score)).sum / step_evaluations.length
    else 0
  let overall_success : Bool := decide (success_threshold ≤ overall_score)
  match parseNarrative decoded with
  | .error e => .error e
  | .ok (some (summary, strengths, weaknesses, lessons)) =>
    .ok ⟨goal, overall_success, overall_score, step_evaluations,
         .fromGateway summary, strengths, weaknesses, lessons⟩
  | .ok Option.none =>
    .ok ⟨goal, overall_success, overall_score, step_evaluations,
         .fallback overall_success overall_score,
         ["Task execution attempted"],
         if overall_success then [] else ["Some steps failed"],
         []⟩

/-- What happened to one subtask position in the run loop of
GeneralPurposeAgent.run: skipped over unmet dependencies, or executed with
the success flag of its ExecutionResult. -/
inductive RunEvent where
  | skipped (id : Int)
  | executed (id : Int) (success : Bool)
deriving DecidableEq

/-- The projection of a run event to the id of the subtask it concerns. -/
def eventId : RunEvent → Int
  | .skipped i => i
  | .executed i _ => i

/-- The ids of the successfully executed subtasks, in order. -/
def successIds : List RunEvent → List Int :=
  List.filterMap (fun e =>
    match e with
    | RunEvent.executed i true => some i
    | _ => Option.none)

/-- The configuration flags Agent.run reads during the execution phase
(agent.py lines 198 and 222). -/
structure RunConfig where
  step_evaluation : Bool
  allow_replanning : Bool

/-- The external collaborators of one run call, as trace oracles indexed by
call count: the ExecutionResult of the n-th executor invocation, the
StepEvaluation of the n-th evaluate_step call, and the Plan the n-th replan
call produces.  Every actual gateway/tool behaviour induces such a trace,
the run loop being deterministic given it. -/
structure RunOracles where
  execResults : Nat → ExecutionResult
  stepEvals : Nat → StepEvaluation
  replans : Nat → Plan

/-- The mutable state of the run loop of Agent.run: the completed id list,
the accumulated step evaluations, the executor and replan call counters,
the current_plan attribute, and the per-position event record. -/
structure LoopState where
  completed : List Int
  step_evals : List StepEvaluation
  execCount : Nat
  replanCount : Nat
  current_plan : Plan
  events : List RunEvent

/-- One iteration of the for-loop of Agent.run (agent.py lines 172-230) on
one subtask.  Verbose printing and the thinking module do not touch this
state and are omitted.  The status/result mutation of the subtask object is
recorded in the executed event (the mutation hits an object of the list
being iterated, not the loop state). -/
def runStep (cfg : RunConfig) (o : RunOracles) (st : LoopState)
    (subtask : SubTask) : LoopState :=
  if subtask.dependencies.all (fun dep => decide (dep ∈ st.completed)) then
    let result := o.execResults st.execCount
    let step_evals :=
      if cfg.step_evaluation then st.step_evals ++ [o.stepEvals st.execCount]
      else st.step_evals
    if result.success then
      ⟨st.completed ++ [subtask.id], step_evals, st.execCount + 1,
       st.replanCount, st.current_plan,
       st.events ++ [RunEvent.executed subtask.id true]⟩
    else
      if cfg.allow_replanning then
        ⟨st.completed, step_evals, st.execCount + 1, st.replanCount + 1,
         o.replans st.replanCount,
         st.events ++ [RunEvent.executed subtask.id false]⟩
      else
        ⟨st.completed, step_evals, st.execCount + 1, st.replanCount,
         st.current_plan, st.events ++ [RunEvent.executed subtask.id false]⟩
  else
    ⟨st.completed, st.step_evals, st.execCount, st.replanCount,
     st.current_plan, st.events ++ [RunEvent.skipped subtask.id]⟩

/-- The loop state on entry to the execution phase (agent.py lines 169-170):
empty completed list and step evaluations, current_plan the plan the
planner returned. -/
def initState (plan : Plan) : LoopState :=
  ⟨[], [], 0, 0, plan, []⟩

/-- The execution phase of Agent.run (agent.py lines 172-230).  The Python
for statement captures the list object self.current_plan.subtasks once at
loop entry; reassigning self.current_plan inside the body (line 226) does
not change the sequence being iterated, so the fold runs over the subtasks
of the plan that entered the loop. -/
def runPhase2 (cfg : RunConfig) (o : RunOracles) (plan : Plan) : LoopState :=
  plan.subtasks.foldl (runStep cfg o) (initState plan)

/-- The loop state after the first i subtask positions. -/
def runStates (cfg : RunConfig) (o : RunOracles) (plan : Plan) (i : Nat) :
    LoopState :=
  (plan.subtasks.take i).foldl (runStep cfg o) (initState plan)

/-- Concrete step evaluation used to instantiate the evaluation theorems. -/
def c3Evals : List StepEvaluation :=
  [⟨1, "write the poem", true, 1, "done", [], []⟩]

/-- The value evaluate_final returns on c3Evals with threshold 7/10 and a
fallback narrative. -/
def c3Final : FinalEvaluation :=
  ⟨"write a two-line poem", true, 1, c3Evals, .fallback true 1,
   ["Task execution attempted"], [], []⟩

/-- A response stream that never stops normally: no tool calls, but the
finish reason is length, not stop. -/
def c5Responses : Nat → ModelResponse :=
  fun _ => ⟨Option.none, "length", []⟩

/-- A tool call naming a tool no registry entry carries, with an
undecodable arguments text. -/
def c6Call : ToolCallReq := ⟨"call-1", "no_such_tool", .error ()⟩

/-- A completion issuing only the unknown tool call. -/
def c6Resp : ModelResponse := ⟨some "using a tool", "tool_calls", [c6Call]⟩

/-- The step outcome of processing c6Resp against the empty registry. -/
def c6Step : StepResult :=
  .next [Message.assistant ("using a tool") [c6Call],
         Message.tool ("call-1") ("no_such_tool")
           (toolNotFoundResult ("no_such_tool"))] []

/-- A registered tool that accepts anything and reports success. -/
def c5Tool : ToolSpec :=
  ⟨"echo", fun _ => .dict [(errorKeySuccess, .bool true)]⟩

/-- An invocation of that tool whose arguments text decodes to a JSON
array, not an object. -/
def c5BadCall : ToolCallReq := ⟨"call-1", "echo", .ok (.list [.int 1])⟩

/-- A stream that never stops normally and always carries the non-mapping
invocation. -/
def c5BadResponses : Nat → ModelResponse :=
  fun _ => ⟨some "", "tool_calls", [c5BadCall]⟩

/-- The ExecutionResult execute_task returns against c5Responses with a
budget of two iterations and the empty registry. -/
def c9Result : ExecutionResult :=
  ⟨false, some maxIterationsOutput, some maxIterationsError, []⟩

/-- The final conversation of that run. -/
def c9Msgs : List Message :=
  initMessages ("t") Option.none ++
    [Message.assistant "" [], Message.assistant "" []]

/-- A decoded planner response whose two entries carry the id values
\x22two\x22-as-string and two-as-int: distinct payload values that pydantic
coerces to the same int id. -/
def c4CoerceResp : PyVal :=
  .dict [(keySubtasks, .list
    [.dict [(keyId, .str "2"), (keyDescription, .str "a")],
     .dict [(keyId, .int 2), (keyDescription, .str "b")]])]

/-- The plan create_plan builds from c4CoerceResp: duplicate ids 2 and 2. -/
def c4CoercePlan : Plan :=
  ⟨"goal", [⟨2, "a", "", [], statusPending, Option.none⟩,
            ⟨2, "b", "", [], statusPending, Option.none⟩], "", "t"⟩

/-- A plan whose single subtask depends on an id no subtask carries. -/
def c7Plan : Plan :=
  ⟨"demo", [⟨1, "step one", "", [2], statusPending, Option.none⟩], "s", "t"⟩

/-- Oracles whose executor always succeeds, with fixed step evaluations and
replans. -/
def trivialOracles : RunOracles :=
  ⟨fun _ => ⟨true, some "ok", Option.none, []⟩,
   fun _ => ⟨0, "", true, 1, "", [], []⟩,
   fun _ => ⟨"", [], "", ""⟩⟩

/-- Both evaluation and replanning enabled, the default configuration. -/
def defaultCfg : RunConfig := ⟨true, true⟩

/-- Replanning enabled, step evaluation off. -/
def c2Cfg : RunConfig := ⟨false, true⟩

/-- A two-subtask plan whose first subtask will fail. -/
def c2Plan : Plan :=
  ⟨"goal", [⟨1, "first", "", [], statusPending, Option.none⟩,
            ⟨2, "second", "", [], statusPending, Option.none⟩], "s", "t0"⟩

/-- The plan the replan oracle produces: a single fresh subtask, id 99, and
no subtask with id 2. -/
def c2NewPlan : Plan :=
  ⟨"goal", [⟨99, "recover", "", [], statusPending, Option.none⟩], "s2", "t1"⟩

/-- Oracles for the replan scenario: the first executor call fails, later
ones succeed, every replan returns c2NewPlan. -/
def c2Oracles : RunOracles :=
  ⟨fun n => if n = 0 then ⟨false, Option.none, some "boom", []⟩
            else ⟨true, some "ok", Option.none, []⟩,
   fun _ => ⟨0, "", true, 1, "", [], []⟩,
   fun _ => c2NewPlan⟩

/-- A decoded planner response with two entries: the first omits its id
(so it defaults to 1) and depends on the absent id 5, the second declares
id 1 explicitly. -/
def c4BadResp : PyVal :=
  .dict [(keySubtasks, .list
    [.dict [(keyDescription, .str "a"), (keyDependencies, .list [.int 5])],
     .dict [(keyId, .int 1), (keyDescription, .str "b")]])]

/-- The plan create_plan builds from c4BadResp: two subtasks, ids 1 and 1,
a dependency on the absent id 5. -/
def c4BadPlan : Plan :=
  ⟨"goal", [⟨1, "a", "", [5], statusPending, Option.none⟩,
            ⟨1, "b", "", [], statusPending, Option.none⟩], "", "t"⟩

/-- A well-formed decoded planner response: distinct ids 1 and 2, one
dependency on the present id 1. -/
def c4GoodResp : PyVal :=
  .dict [(keySubtasks, .list
    [.dict [(keyDescription, .str "a")],
     .dict [(keyId, .int 2), (keyDescription, .str "b"),
            (keyDependencies, .list [.int 1])]])]

/-- The plan create_plan builds from c4GoodResp. -/
def c4GoodPlan : Plan :=
  ⟨"goal", [⟨1, "a", "", [], statusPending, Option.none⟩,
            ⟨2, "b", "", [1], statusPending, Option.none⟩], "", "t"⟩

/-- C1: the specification says create_plan never raises and falls back to
the single-subtask plan on parse failure; the code instead raises
UnboundLocalError there, because the except handler at planning.py
lines 113-127 reads datetime, a function-local name the try block imports
only at line 105, after every point where a caught exception can occur.
Evaluated here at a concrete goal on an unparsable gateway response. -/
theorem create_plan_parse_failure_raises :
    create_plan 20 ("write a two-line poem") ("2024-01-01T00:00:00")
      (.error ()) = .error PyExc.unboundLocalError ∧
    create_plan 20 ("write a two-line poem") ("2024-01-01T00:00:00")
      (.error ()) ≠
      .ok (fallbackPlan ("write a two-line poem") ("2024-01-01T00:00:00")) := by
  exact ⟨rfl, by intro h; cases h⟩

/-- C8: on a replan response that fails to parse, replan returns the
original plan value itself, every field unchanged (planning.py
lines 195-197). -/
theorem replan_parse_failure_returns_original
    (original : Plan) (completed : List Int) (now : String) :
    replan original completed now (.error ()) = .ok original := rfl

/-- C3: evaluate_final computes the overall score as the arithmetic mean of
the step scores, 0 when there are none, and the success flag as the
comparison of that score against the threshold, whatever the gateway
narrative did (evaluation.py lines 139-145). -/
theorem evaluate_final_mean_and_threshold
    (threshold : ℚ) (goal : String) (evals : List StepEvaluation)
    (decoded : Except Unit PyVal) (fe : FinalEvaluation)
    (hscores : ∀ e ∈ evals, 0 ≤ e.score ∧ e.score ≤ 1)
    (hret : evaluate_final threshold goal evals decoded = .ok fe) :
    fe.overall_score =
      (if evals = [] then 0 else arithMean (evals.map (fun e => e.score))) ∧
    fe.overall_success = decide (fe.overall_score ≥ threshold) ∧
    (evals = [] →
      fe.overall_score = 0 ∧
      fe.overall_success = decide ((0 : ℚ) ≥ threshold)) := by
  unfold evaluate_final at hret
  cases hp : parseNarrative decoded with
  | error e => rw [hp] at hret; cases hret
  | ok narrative =>
    rw [hp] at hret
    have hscore :
        (if evals.length ≠ 0 then
            (evals.map (fun e => e.score)).sum / (evals.length : ℚ)
          else 0) =
        (if evals = [] then 0 else arithMean (evals.map (fun e => e.score))) := by
      rcases eq_or_ne evals [] with he | he
      · subst he; simp
      · have hlen : evals.length ≠ 0 := by
          simpa [List.length_eq_zero] using he
        simp [he, hlen, arithMean]
    cases narrative with
    | none =>
      injection hret with h
      subst h
      refine ⟨hscore, rfl, ?_⟩
      intro he
      subst he
      simp
    | some quad =>
      obtain ⟨summary, strengths, weaknesses, lessons⟩ := quad
      injection hret with h
      subst h
      refine ⟨hscore, rfl, ?_⟩
      intro he
      subst he
      simp

/-- Witness for C3 at a one-element evaluation list with score 1, threshold
7/10, fallback narrative. -/
theorem evaluate_final_mean_and_threshold_witness :
    (∀ e ∈ c3Evals, 0 ≤ e.score ∧ e.score ≤ 1) ∧
    (c3Final.overall_score =
      (if c3Evals = [] then 0 else arithMean (c3Evals.map (fun e => e.score))) ∧
     c3Final.overall_success = decide (c3Final.overall_score ≥ (7 / 10 : ℚ)) ∧
     (c3Evals = [] →
       c3Final.overall_score = 0 ∧
       c3Final.overall_success = decide ((0 : ℚ) ≥ (7 / 10 : ℚ)))) :=
  ⟨by decide,
   evaluate_final_mean_and_threshold (7 / 10) ("write a two-line poem")
     c3Evals (.error ()) c3Final (by decide)
     (by simp [evaluate_final, parseNarrative, c3Evals, c3Final]; norm_num)⟩

theorem ok_bind {α β : Type} (a : α) (f : α → Except PyExc β) :
    (Except.ok a >>= f) = f a := rfl

theorem error_bind {α β : Type} (e : PyExc) (f : α → Except PyExc β) :
    ((Except.error e : Except PyExc α) >>= f) = .error e := rfl

theorem isDictVal_dict (v : PyVal) (h : isDictVal v = true) :
    ∃ kvs, v = .dict kvs := by
  cases v with
  | dict kvs => exact ⟨kvs, rfl⟩
  | none => cases h
  | bool b => cases h
  | int n => cases h
  | str s => cases h
  | list xs => cases h

theorem processToolCall_unknown (reg : List ToolSpec) (tc : ToolCallReq)
    (h : lookupTool reg tc.name = Option.none)
    (ms : List Message) (log : List ToolCallRecord) :
    processToolCall reg (ms, log) tc =
      .ok (ms ++ [Message.tool tc.id tc.name (toolNotFoundResult tc.name)],
           log) := by
  unfold processToolCall
  rw [h]

theorem processToolCall_known (reg : List ToolSpec) (tc : ToolCallReq)
    (tool : ToolSpec) (kvs : List (String × PyVal))
    (h : lookupTool reg tc.name = some tool) (hd : decodedArgs tc = .dict kvs)
    (ms : List Message) (log : List ToolCallRecord) :
    processToolCall reg (ms, log) tc =
      .ok (ms ++ [Message.tool tc.id tc.name (tool.execute kvs)],
           log ++ [⟨tc.name, kvs, tool.execute kvs⟩]) := by
  unfold processToolCall
  rw [h, hd]

theorem processToolCall_raises (reg : List ToolSpec) (tc : ToolCallReq)
    (tool : ToolSpec) (h : lookupTool reg tc.name = some tool)
    (hnd : isDictVal (decodedArgs tc) = false)
    (ms : List Message) (log : List ToolCallRecord) :
    processToolCall reg (ms, log) tc = .error .typeError := by
  unfold processToolCall
  rw [h]
  cases hda : decodedArgs tc with
  | dict kvs => rw [hda] at hnd; cases hnd
  | none => rfl
  | bool b => rfl
  | int n => rfl
  | str s => rfl
  | list xs => rfl

theorem knownRecord_unknown (reg : List ToolSpec) (tc : ToolCallReq)
    (h : lookupTool reg tc.name = Option.none) :
    knownRecord reg tc = Option.none := by
  unfold knownRecord
  rw [h]

theorem knownRecord_known (reg : List ToolSpec) (tc : ToolCallReq)
    (tool : ToolSpec) (kvs : List (String × PyVal))
    (h : lookupTool reg tc.name = some tool)
    (hd : decodedArgs tc = .dict kvs) :
    knownRecord reg tc = some ⟨tc.name, kvs, tool.execute kvs⟩ := by
  unfold knownRecord
  rw [h, hd]

theorem knownRecord_nondict (reg : List ToolSpec) (tc : ToolCallReq)
    (hnd : isDictVal (decodedArgs tc) = false) :
    knownRecord reg tc = Option.none := by
  unfold knownRecord
  cases hl : lookupTool reg tc.name with
  | none => rfl
  | some tool =>
    cases hda : decodedArgs tc with
    | dict kvs => rw [hda] at hnd; cases hnd
    | none => rfl
    | bool b => rfl
    | int n => rfl
    | str s => rfl
    | list xs => rfl

theorem assistantCount_append (l1 l2 : List Message) :
    assistantCount (l1 ++ l2) = assistantCount l1 + assistantCount l2 :=
  List.countP_append _ _ _

theorem processToolCalls_ok (reg : List ToolSpec) :
    ∀ (tcs : List ToolCallReq) (ms : List Message) (log : List ToolCallRecord)
      (st : List Message × List ToolCallRecord),
    processToolCalls reg tcs (ms, log) = .ok st →
    st.2 = log ++ tcs.filterMap (knownRecord reg) ∧
    (∀ m ∈ ms, m ∈ st.1) ∧
    assistantCount st.1 = assistantCount ms := by
  intro tcs
  induction tcs with
  | nil =>
    intro ms log st h
    injection h with h2
    rw [← h2]
    exact ⟨by simp, fun m hm => hm, rfl⟩
  | cons tc tcs ih =>
    intro ms log st h
    unfold processToolCalls at h
    cases hl : lookupTool reg tc.name with
    | none =>
      rw [processToolCall_unknown reg tc hl, ok_bind] at h
      obtain ⟨h1, h2, h3⟩ := ih _ _ st h
      refine ⟨?_, ?_, ?_⟩
      · rw [h1, List.filterMap_cons_none (knownRecord_unknown reg tc hl)]
      · intro m hm
        exact h2 m (List.mem_append_left _ hm)
      · rw [h3, assistantCount_append]
        rfl
    | some tool =>
      cases hid : isDictVal (decodedArgs tc) with
      | true =>
        obtain ⟨kvs, hkvs⟩ := isDictVal_dict _ hid
        rw [processToolCall_known reg tc tool kvs hl hkvs, ok_bind] at h
        obtain ⟨h1, h2, h3⟩ := ih _ _ st h
        refine ⟨?_, ?_, ?_⟩
        · rw [h1,
            List.filterMap_cons_some (knownRecord_known reg tc tool kvs hl hkvs)]
          simp
        · intro m hm
          exact h2 m (List.mem_append_left _ hm)
        · rw [h3, assistantCount_append]
          rfl
      | false =>
        rw [processToolCall_raises reg tc tool hl hid, error_bind] at h
        cases h

theorem processToolCalls_processable (reg : List ToolSpec) :
    ∀ (tcs : List ToolCallReq) (ms : List Message) (log : List ToolCallRecord),
    (∀ tc ∈ tcs, (lookupTool reg tc.name).isSome = true →
      isDictVal (decodedArgs tc) = true) →
    ∃ ms2, processToolCalls reg tcs (ms, log) =
      .ok (ms2, log ++ tcs.filterMap (knownRecord reg)) := by
  intro tcs
  induction tcs with
  | nil =>
    intro ms log hargs
    exact ⟨ms, by simp [processToolCalls]⟩
  | cons tc tcs ih =>
    intro ms log hargs
    unfold processToolCalls
    cases hl : lookupTool reg tc.name with
    | none =>
      obtain ⟨ms2, hrec⟩ := ih
        (ms ++ [Message.tool tc.id tc.name (toolNotFoundResult tc.name)]) log
        (fun tc2 h2 => hargs tc2 (List.mem_cons_of_mem tc h2))
      refine ⟨ms2, ?_⟩
      rw [processToolCall_unknown reg tc hl, ok_bind, hrec,
          List.filterMap_cons_none (knownRecord_unknown reg tc hl)]
    | some tool =>
      have hd : isDictVal (decodedArgs tc) = true :=
        hargs tc (List.mem_cons_self tc tcs) (by rw [hl]; rfl)
      obtain ⟨kvs, hkvs⟩ := isDictVal_dict _ hd
      obtain ⟨ms2, hrec⟩ := ih
        (ms ++ [Message.tool tc.id tc.name (tool.execute kvs)])
        (log ++ [⟨tc.name, kvs, tool.execute kvs⟩])
        (fun tc2 h2 => hargs tc2 (List.mem_cons_of_mem tc h2))
      refine ⟨ms2, ?_⟩
      rw [processToolCall_known reg tc tool kvs hl hkvs, ok_bind, hrec,
          List.filterMap_cons_some (knownRecord_known reg tc tool kvs hl hkvs)]
      simp

theorem processToolCalls_errMsg (reg : List ToolSpec) :
    ∀ (tcs : List ToolCallReq) (ms : List Message) (log : List ToolCallRecord)
      (st : List Message × List ToolCallRecord) (tc : ToolCallReq),
    processToolCalls reg tcs (ms, log) = .ok st →
    tc ∈ tcs → lookupTool reg tc.name = Option.none →
    Message.tool tc.id tc.name (toolNotFoundResult tc.name) ∈ st.1 := by
  intro tcs
  induction tcs with
  | nil =>
    intro ms log st tc hok hmem hun
    cases hmem
  | cons tc0 tcs ih =>
    intro ms log st tc hok hmem hun
    unfold processToolCalls at hok
    rcases List.mem_cons.mp hmem with heq | hmem2
    · subst heq
      rw [processToolCall_unknown reg tc hun, ok_bind] at hok
      obtain ⟨_, hmono, _⟩ := processToolCalls_ok reg tcs _ _ st hok
      exact hmono _ (List.mem_append_right _ (List.mem_singleton_self _))
    · cases hl : lookupTool reg tc0.name with
      | none =>
        rw [processToolCall_unknown reg tc0 hl, ok_bind] at hok
        exact ih _ _ st tc hok hmem2 hun
      | some tool =>
        cases hid : isDictVal (decodedArgs tc0) with
        | true =>
          obtain ⟨kvs, hkvs⟩ := isDictVal_dict _ hid
          rw [processToolCall_known reg tc0 tool kvs hl hkvs, ok_bind] at hok
          exact ih _ _ st tc hok hmem2 hun
        | false =>
          rw [processToolCall_raises reg tc0 tool hl hid, error_bind] at hok
          cases hok

theorem stepIter_not_stop (reg : List ToolSpec) (resp : ModelResponse)
    (msgs : List Message) (log : List ToolCallRecord)
    (h : ¬ normalStop resp)
    (hargs : ∀ tc ∈ resp.tool_calls, (lookupTool reg tc.name).isSome = true →
      isDictVal (decodedArgs tc) = true) :
    ∃ ms, stepIter reg resp msgs log =
      .ok (.next ms (log ++ knownRecords reg resp)) ∧
      assistantCount ms = assistantCount msgs + 1 := by
  unfold stepIter
  cases hr : resp.tool_calls with
  | nil =>
    have hs : ¬ resp.finish_reason = "stop" := fun hstop => h ⟨hr, hstop⟩
    refine ⟨msgs ++ [Message.assistant (resp.content.getD "") []], ?_, ?_⟩
    · simp [hs, knownRecords, hr]
    · rw [assistantCount_append]
      rfl
  | cons tc tcs =>
    rw [hr] at hargs
    obtain ⟨ms2, hp⟩ := processToolCalls_processable reg (tc :: tcs)
      (msgs ++ [Message.assistant (resp.content.getD "") (tc :: tcs)]) log hargs
    obtain ⟨_, _, hcnt⟩ := processToolCalls_ok reg (tc :: tcs) _ _ _ hp
    refine ⟨ms2, ?_, ?_⟩
    · simp only []
      rw [hp, ok_bind]
      unfold knownRecords
      rw [hr]
    · rw [hcnt, assistantCount_append]
      rfl

theorem stepIter_ok_cases (reg : List ToolSpec) (resp : ModelResponse)
    (msgs : List Message) (log : List ToolCallRecord) (step : StepResult)
    (h : stepIter reg resp msgs log = .ok step) :
    (∃ res ms, step = .done res ms ∧ res.tool_calls = log) ∨
    (∃ ms, step = .next ms (log ++ knownRecords reg resp)) := by
  unfold stepIter at h
  cases hr : resp.tool_calls with
  | nil =>
    rw [hr] at h
    simp only [] at h
    by_cases hs : resp.finish_reason = "stop"
    · rw [if_pos hs] at h
      injection h with h2
      left
      exact ⟨⟨true, resp.content, Option.none, log⟩,
        msgs ++ [Message.assistant (resp.content.getD "") []], h2.symm, rfl⟩
    · rw [if_neg hs] at h
      injection h with h2
      right
      refine ⟨msgs ++ [Message.assistant (resp.content.getD "") []], ?_⟩
      rw [← h2]
      unfold knownRecords
      rw [hr]
      simp
  | cons tc tcs =>
    rw [hr] at h
    simp only [] at h
    cases hp : processToolCalls reg (tc :: tcs)
        (msgs ++ [Message.assistant (resp.content.getD "") (tc :: tcs)], log) with
    | error e =>
      rw [hp, error_bind] at h
      cases h
    | ok st =>
      rw [hp, ok_bind] at h
      injection h with h2
      obtain ⟨hlog, _, _⟩ := processToolCalls_ok reg (tc :: tcs) _ _ st hp
      right
      refine ⟨st.1, ?_⟩
      rw [← h2, hlog]
      unfold knownRecords
      rw [hr]

theorem rangeMapShift {α : Type} (f : Nat → List α) (idx k : Nat) :
    ((List.range (k + 1)).map (fun i => f (idx + i))).flatten =
      f idx ++ ((List.range k).map (fun i => f (idx + 1 + i))).flatten := by
  rw [List.range_succ_eq_map]
  simp only [List.map_cons, List.flatten_cons, List.map_map, Nat.add_zero]
  have hfe : ((fun i => f (idx + i)) ∘ Nat.succ) = fun i => f (idx + 1 + i) := by
    funext i
    simp only [Function.comp]
    congr 1
    omega
  rw [hfe]

theorem execLoop_exhaustion (reg : List ToolSpec)
    (responses : Nat → ModelResponse) :
    ∀ (remaining idx : Nat) (msgs : List Message) (log : List ToolCallRecord),
    (∀ i, i < remaining → ¬ normalStop (responses (idx + i))) →
    (∀ i, i < remaining → ∀ tc ∈ (responses (idx + i)).tool_calls,
      (lookupTool reg tc.name).isSome = true →
      isDictVal (decodedArgs tc) = true) →
    ∃ msgs2,
      execLoop reg responses idx remaining msgs log =
        .ok (⟨false, some maxIterationsOutput, some maxIterationsError,
              log ++ ((List.range remaining).map
                (fun i => knownRecords reg (responses (idx + i)))).flatten⟩,
             msgs2) ∧
      assistantCount msgs2 = assistantCount msgs + remaining := by
  intro remaining
  induction remaining with
  | zero =>
    intro idx msgs log h hargs
    refine ⟨msgs, ?_, rfl⟩
    simp [execLoop]
  | succ r ih =>
    intro idx msgs log h hargs
    have h0 : ¬ normalStop (responses idx) := by
      have := h 0 (Nat.succ_pos r)
      simpa using this
    have hargs0 : ∀ tc ∈ (responses idx).tool_calls,
        (lookupTool reg tc.name).isSome = true →
        isDictVal (decodedArgs tc) = true := by
      have := hargs 0 (Nat.succ_pos r)
      simpa using this
    obtain ⟨ms, hstep, hcnt⟩ :=
      stepIter_not_stop reg (responses idx) msgs log h0 hargs0
    have hshift : ∀ i, idx + (i + 1) = idx + 1 + i := fun i => by omega
    have hrest : ∀ i, i < r → ¬ normalStop (responses (idx + 1 + i)) := by
      intro i hi
      have := h (i + 1) (Nat.succ_lt_succ hi)
      rw [hshift i] at this
      exact this
    have hargsrest : ∀ i, i < r → ∀ tc ∈ (responses (idx + 1 + i)).tool_calls,
        (lookupTool reg tc.name).isSome = true →
        isDictVal (decodedArgs tc) = true := by
      intro i hi
      have := hargs (i + 1) (Nat.succ_lt_succ hi)
      rw [hshift i] at this
      exact this
    obtain ⟨msgs2, hloop, hcnt2⟩ :=
      ih (idx + 1) ms (log ++ knownRecords reg (responses idx)) hrest hargsrest
    refine ⟨msgs2, ?_, ?_⟩
    · show (do
        let step ← stepIter reg (responses idx) msgs log
        match step with
        | .done res ms2 => (.ok (res, ms2) : Except PyExc _)
        | .next ms2 lg => execLoop reg responses (idx + 1) r ms2 lg) = _
      rw [hstep, ok_bind]
      show execLoop reg responses (idx + 1) r ms
        (log ++ knownRecords reg (responses idx)) = _
      rw [hloop]
      have harr : (log ++ knownRecords reg (responses idx)) ++
          ((List.range r).map
            (fun i => knownRecords reg (responses (idx + 1 + i)))).flatten =
          log ++ ((List.range (r + 1)).map
            (fun i => knownRecords reg (responses (idx + i)))).flatten := by
        rw [List.append_assoc]
        congr 1
        rw [rangeMapShift (fun i => knownRecords reg (responses i)) idx r]
      rw [harr]
    · rw [hcnt2, hcnt]
      omega

theorem execLoop_log (reg : List ToolSpec) (responses : Nat → ModelResponse) :
    ∀ (remaining idx : Nat) (msgs : List Message) (log : List ToolCallRecord)
      (st : ExecutionResult × List Message),
    execLoop reg responses idx remaining msgs log = .ok st →
    ∃ k, k ≤ remaining ∧
      st.1.tool_calls = log ++ ((List.range k).map
        (fun i => knownRecords reg (responses (idx + i)))).flatten := by
  intro remaining
  induction remaining with
  | zero =>
    intro idx msgs log st h
    injection h with h2
    refine ⟨0, Nat.le_refl 0, ?_⟩
    rw [← h2]
    simp
  | succ r ih =>
    intro idx msgs log st h
    have h2 : (do
        let step ← stepIter reg (responses idx) msgs log
        match step with
        | .done res ms => (.ok (res, ms) : Except PyExc _)
        | .next ms lg => execLoop reg responses (idx + 1) r ms lg) = .ok st := h
    cases hs : stepIter reg (responses idx) msgs log with
    | error e =>
      rw [hs, error_bind] at h2
      cases h2
    | ok step =>
      rw [hs, ok_bind] at h2
      rcases stepIter_ok_cases reg (responses idx) msgs log step hs with
        ⟨res, ms, hd, hres⟩ | ⟨ms, hn⟩
      · subst hd
        injection h2 with h3
        refine ⟨0, Nat.zero_le _, ?_⟩
        rw [← h3]
        simp [hres]
      · subst hn
        obtain ⟨k, hk, hcalls⟩ :=
          ih (idx + 1) ms (log ++ knownRecords reg (responses idx)) st h2
        refine ⟨k + 1, Nat.succ_le_succ hk, ?_⟩
        rw [hcalls, List.append_assoc]
        congr 1
        rw [rangeMapShift (fun i => knownRecords reg (responses i)) idx k]

theorem knownRecords_mem_registry (reg : List ToolSpec) (resp : ModelResponse)
    (rec : ToolCallRecord) (h : rec ∈ knownRecords reg resp) :
    (lookupTool reg rec.tool).isSome = true := by
  unfold knownRecords at h
  obtain ⟨tc, hmem, htc⟩ := List.mem_filterMap.mp h
  cases hl : lookupTool reg tc.name with
  | none =>
    rw [knownRecord_unknown reg tc hl] at htc
    cases htc
  | some tool =>
    cases hid : isDictVal (decodedArgs tc) with
    | true =>
      obtain ⟨kvs, hkvs⟩ := isDictVal_dict _ hid
      rw [knownRecord_known reg tc tool kvs hl hkvs] at htc
      injection htc with h2
      rw [← h2]
      simp [hl]
    | false =>
      rw [knownRecord_nondict reg tc hid] at htc
      cases htc

/-- C5 counterexample: a registered tool and a gateway that never stops
normally, every completion invoking the tool with an arguments text that
decodes to a JSON array.  The double-star unpacking at execution.py line 138
raises TypeError on the first iteration, so execute_task raises instead of
returning the claimed failure ExecutionResult after max_iterations. -/
theorem execute_task_raises_on_nonmapping_args_cex :
    (∀ i, ¬ normalStop (c5BadResponses i)) ∧
    execute_task [c5Tool] c5BadResponses 2 ("t") Option.none =
      .error PyExc.typeError := by
  constructor
  · intro i
    simp [c5BadResponses, normalStop]
  · rfl

/-- C5 as amended: against a gateway that never produces a normal stop, if
additionally every invocation of a registered tool carries an arguments
payload decoding to a JSON object (a decode failure counts as the empty
object), then execute_task runs exactly max_iterations loop iterations (one
assistant message each) and returns failure with the iteration-exhaustion
error, keeping the tool-call log accumulated over all iterations
(execution.py lines 99-100 and 186-192).  Without the proviso the run can
raise TypeError instead (see the counterexample). -/
theorem execute_task_iteration_exhaustion (reg : List ToolSpec)
    (responses : Nat → ModelResponse) (maxIterations : Nat)
    (task : String) (context : Option String)
    (h : ∀ i, i < maxIterations → ¬ normalStop (responses i))
    (hargs : ∀ i, i < maxIterations → ∀ tc ∈ (responses i).tool_calls,
      (lookupTool reg tc.name).isSome = true →
      isDictVal (decodedArgs tc) = true) :
    ∃ msgs,
      execute_task reg responses maxIterations task context =
        .ok (⟨false, some maxIterationsOutput, some maxIterationsError,
              ((List.range maxIterations).map
                (fun i => knownRecords reg (responses i))).flatten⟩, msgs) ∧
      assistantCount msgs = maxIterations := by
  have h2 : ∀ i, i < maxIterations → ¬ normalStop (responses (0 + i)) := by
    intro i hi
    rw [Nat.zero_add]
    exact h i hi
  have hargs2 : ∀ i, i < maxIterations → ∀ tc ∈ (responses (0 + i)).tool_calls,
      (lookupTool reg tc.name).isSome = true →
      isDictVal (decodedArgs tc) = true := by
    intro i hi
    rw [Nat.zero_add]
    exact hargs i hi
  obtain ⟨msgs2, hloop, hcnt⟩ := execLoop_exhaustion reg responses maxIterations 0
    (initMessages task context) [] h2 hargs2
  refine ⟨msgs2, ?_, ?_⟩
  · show execLoop reg responses 0 maxIterations
      (initMessages task context) [] = _
    rw [hloop]
    simp [Nat.zero_add]
  · rw [hcnt]
    have hinit : assistantCount (initMessages task context) = 0 := by
      simp [initMessages, assistantCount, List.countP_cons, List.countP_nil]
    rw [hinit]
    exact Nat.zero_add maxIterations

/-- Witness for the amended C5: empty registry, a stream of finish reason
length, a budget of two iterations. -/
theorem execute_task_iteration_exhaustion_witness :
    ∃ msgs,
      execute_task [] c5Responses 2 ("t") Option.none =
        .ok (⟨false, some maxIterationsOutput, some maxIterationsError,
              ((List.range 2).map
                (fun i => knownRecords [] (c5Responses i))).flatten⟩, msgs) ∧
      assistantCount msgs = 2 :=
  execute_task_iteration_exhaustion [] c5Responses 2 ("t") Option.none
    (by intro i hi; simp [c5Responses, normalStop])
    (by intro i hi tc htc; simp [c5Responses] at htc)

/-- C6: a tool invocation naming a tool not in the registry never raises
and never aborts by itself: processing it only appends the success-false
error tool message to the conversation, and whenever the iteration holding
it completes (as it always does when no other invocation of that completion
raises), the outcome is a continue carrying that message and the while loop
moves on to the next completion (execution.py lines 163-173). -/
theorem unknown_tool_error_message_and_continue (reg : List ToolSpec)
    (resp : ModelResponse) (msgs : List Message) (log : List ToolCallRecord)
    (tc : ToolCallReq) (step : StepResult)
    (hmem : tc ∈ resp.tool_calls)
    (hun : lookupTool reg tc.name = Option.none)
    (hstep : stepIter reg resp msgs log = .ok step) :
    (∀ st : List Message × List ToolCallRecord,
      processToolCall reg st tc =
        .ok (st.1 ++ [Message.tool tc.id tc.name (toolNotFoundResult tc.name)],
             st.2)) ∧
    ∃ ms lg, step = .next ms lg ∧
      Message.tool tc.id tc.name (toolNotFoundResult tc.name) ∈ ms ∧
      ∀ (responses : Nat → ModelResponse) (idx r : Nat),
        responses idx = resp →
        execLoop reg responses idx (r + 1) msgs log =
          execLoop reg responses (idx + 1) r ms lg := by
  refine ⟨?_, ?_⟩
  · intro st
    exact processToolCall_unknown reg tc hun st.1 st.2
  · have hstep2 := hstep
    unfold stepIter at hstep2
    cases hr : resp.tool_calls with
    | nil =>
      rw [hr] at hmem
      cases hmem
    | cons tc0 tcs =>
      rw [hr] at hstep2
      simp only [] at hstep2
      cases hp : processToolCalls reg (tc0 :: tcs)
          (msgs ++ [Message.assistant (resp.content.getD "") (tc0 :: tcs)],
           log) with
      | error e =>
        rw [hp, error_bind] at hstep2
        cases hstep2
      | ok st =>
        rw [hp, ok_bind] at hstep2
        injection hstep2 with h2
        refine ⟨st.1, st.2, h2.symm, ?_, ?_⟩
        · exact processToolCalls_errMsg reg (tc0 :: tcs) _ _ st tc hp
            (hr ▸ hmem) hun
        · intro responses idx r heq
          show (do
            let step2 ← stepIter reg (responses idx) msgs log
            match step2 with
            | .done res2 ms2 => (.ok (res2, ms2) : Except PyExc _)
            | .next ms2 lg2 => execLoop reg responses (idx + 1) r ms2 lg2) = _
          rw [heq, hstep, ← h2, ok_bind]

/-- Witness for C6: empty registry and a completion carrying one call to a
name no tool has. -/
theorem unknown_tool_error_message_and_continue_witness :
    (∀ st : List Message × List ToolCallRecord,
      processToolCall [] st c6Call =
        .ok (st.1 ++ [Message.tool c6Call.id c6Call.name
              (toolNotFoundResult c6Call.name)], st.2)) ∧
    ∃ ms lg, c6Step = .next ms lg ∧
      Message.tool c6Call.id c6Call.name (toolNotFoundResult c6Call.name) ∈ ms ∧
      ∀ (responses : Nat → ModelResponse) (idx r : Nat),
        responses idx = c6Resp →
        execLoop [] responses idx (r + 1) [] [] =
          execLoop [] responses (idx + 1) r ms lg :=
  unknown_tool_error_message_and_continue [] c6Resp [] [] c6Call c6Step
    (by simp [c6Resp]) rfl rfl

/-- C9: whenever execute_task returns (rather than propagating a tool-call
TypeError), the returned tool_calls log holds exactly the registry-resolved
invocations of the completions processed, in execution order; a call naming
an unknown tool contributes nothing to the log (its failure entry goes only
to the conversation), so every logged record resolves in the registry
(execution.py lines 134-153 and 163-173). -/
theorem execute_task_log_only_registry_tools (reg : List ToolSpec)
    (responses : Nat → ModelResponse) (maxIterations : Nat)
    (task : String) (context : Option String)
    (st : ExecutionResult × List Message)
    (hok : execute_task reg responses maxIterations task context = .ok st) :
    ∃ k, k ≤ maxIterations ∧
      st.1.tool_calls = ((List.range k).map
        (fun i => knownRecords reg (responses i))).flatten ∧
      ∀ rec ∈ st.1.tool_calls, (lookupTool reg rec.tool).isSome = true := by
  obtain ⟨k, hk, hcalls⟩ := execLoop_log reg responses maxIterations 0
    (initMessages task context) [] st hok
  have hcalls2 : st.1.tool_calls = ((List.range k).map
      (fun i => knownRecords reg (responses i))).flatten := by
    rw [hcalls]
    simp [Nat.zero_add]
  refine ⟨k, hk, hcalls2, ?_⟩
  intro rec hrec
  rw [hcalls2] at hrec
  obtain ⟨l, hl, hrecl⟩ := List.mem_flatten.mp hrec
  obtain ⟨i, hi, hli⟩ := List.mem_map.mp hl
  rw [← hli] at hrecl
  exact knownRecords_mem_registry reg (responses i) rec hrecl

/-- Witness for C9: the two-iteration exhaustion run against the empty
registry returns an empty log, covered with k = 2. -/
theorem execute_task_log_only_registry_tools_witness :
    ∃ k, k ≤ 2 ∧
      (c9Result, c9Msgs).1.tool_calls = ((List.range k).map
        (fun i => knownRecords [] (c5Responses i))).flatten ∧
      ∀ rec ∈ (c9Result, c9Msgs).1.tool_calls,
        (lookupTool [] rec.tool).isSome = true :=
  execute_task_log_only_registry_tools [] c5Responses 2 ("t") Option.none
    (c9Result, c9Msgs) rfl

theorem runStep_unmet (cfg : RunConfig) (o : RunOracles) (st : LoopState)
    (s : SubTask)
    (h : ¬ s.dependencies.all (fun dep => decide (dep ∈ st.completed)) = true) :
    runStep cfg o st s =
      ⟨st.completed, st.step_evals, st.execCount, st.replanCount,
       st.current_plan, st.events ++ [RunEvent.skipped s.id]⟩ := by
  unfold runStep
  rw [if_neg h]

theorem runStep_event (cfg : RunConfig) (o : RunOracles) (st : LoopState)
    (s : SubTask) :
    ∃ e, (runStep cfg o st s).events = st.events ++ [e] ∧ eventId e = s.id := by
  unfold runStep
  by_cases h : s.dependencies.all (fun dep => decide (dep ∈ st.completed)) = true
  · rw [if_pos h]
    by_cases hs : (o.execResults st.execCount).success = true
    · rw [if_pos hs]
      exact ⟨RunEvent.executed s.id true, rfl, rfl⟩
    · rw [if_neg hs]
      by_cases hr : cfg.allow_replanning = true
      · rw [if_pos hr]
        exact ⟨RunEvent.executed s.id false, rfl, rfl⟩
      · rw [if_neg hr]
        exact ⟨RunEvent.executed s.id false, rfl, rfl⟩
  · rw [if_neg h]
    exact ⟨RunEvent.skipped s.id, rfl, rfl⟩

theorem runFold_events_map (cfg : RunConfig) (o : RunOracles) :
    ∀ (l : List SubTask) (st : LoopState),
    ((l.foldl (runStep cfg o) st).events).map eventId =
      st.events.map eventId ++ l.map (fun s => s.id) := by
  intro l
  induction l with
  | nil => intro st; simp
  | cons s l ih =>
    intro st
    simp only [List.foldl_cons, List.map_cons]
    rw [ih]
    obtain ⟨e, he, hid⟩ := runStep_event cfg o st s
    rw [he]
    simp [hid]

theorem runFold_events_prefix (cfg : RunConfig) (o : RunOracles) :
    ∀ (l : List SubTask) (st : LoopState),
    st.events <+: (l.foldl (runStep cfg o) st).events := by
  intro l
  induction l with
  | nil => intro st; exact List.prefix_refl _
  | cons s l ih =>
    intro st
    simp only [List.foldl_cons]
    obtain ⟨e, he, _⟩ := runStep_event cfg o st s
    refine List.IsPrefix.trans ?_ (ih (runStep cfg o st s))
    rw [he]
    exact ⟨[e], rfl⟩

theorem runFold_events_length (cfg : RunConfig) (o : RunOracles) :
    ∀ (l : List SubTask) (st : LoopState),
    ((l.foldl (runStep cfg o) st).events).length =
      st.events.length + l.length := by
  intro l
  induction l with
  | nil => intro st; simp
  | cons s l ih =>
    intro st
    simp only [List.foldl_cons, List.length_cons]
    rw [ih]
    obtain ⟨e, he, _⟩ := runStep_event cfg o st s
    rw [he]
    simp
    omega

theorem runStates_succ (cfg : RunConfig) (o : RunOracles) (plan : Plan)
    (i : Nat) (h : i < plan.subtasks.length) :
    runStates cfg o plan (i + 1) =
      runStep cfg o (runStates cfg o plan i) (plan.subtasks.get ⟨i, h⟩) := by
  unfold runStates
  rw [List.take_succ, List.foldl_append]
  have hg : plan.subtasks[i]? = some (plan.subtasks.get ⟨i, h⟩) := by
    rw [List.getElem?_eq_getElem h]
    simp [List.get_eq_getElem]
  rw [hg]
  rfl

theorem runStates_events_length (cfg : RunConfig) (o : RunOracles)
    (plan : Plan) (i : Nat) (h : i ≤ plan.subtasks.length) :
    ((runStates cfg o plan i).events).length = i := by
  unfold runStates
  rw [runFold_events_length]
  simp [initState]
  omega

theorem runPhase2_from (cfg : RunConfig) (o : RunOracles) (plan : Plan)
    (i : Nat) :
    runPhase2 cfg o plan =
      (plan.subtasks.drop i).foldl (runStep cfg o) (runStates cfg o plan i) := by
  unfold runPhase2 runStates
  rw [← List.foldl_append, List.take_append_drop]

theorem successIds_append (a b : List RunEvent) :
    successIds (a ++ b) = successIds a ++ successIds b :=
  List.filterMap_append _ _ _

theorem successIds_executed_true (i : Int) :
    successIds [RunEvent.executed i true] = [i] := rfl

theorem successIds_executed_false (i : Int) :
    successIds [RunEvent.executed i false] = [] := rfl

theorem successIds_skipped (i : Int) :
    successIds [RunEvent.skipped i] = [] := rfl

/-- C7: when the run loop reaches a subtask one of whose dependency ids is
not yet in the completed list, the iteration only records the skip: the
executor call counter, the completed list, the evaluations, the replan
counter and the current plan are all unchanged, and the final event record
of the whole run keeps the skip at that position, so the subtask is never
executed later in that run (agent.py lines 172-177). -/
theorem run_unmet_dependency_skips (cfg : RunConfig) (o : RunOracles)
    (plan : Plan) (i : Nat) (h : i < plan.subtasks.length) (d : Int)
    (hd : d ∈ (plan.subtasks.get ⟨i, h⟩).dependencies)
    (hnc : d ∉ (runStates cfg o plan i).completed) :
    runStates cfg o plan (i + 1) =
      ⟨(runStates cfg o plan i).completed,
       (runStates cfg o plan i).step_evals,
       (runStates cfg o plan i).execCount,
       (runStates cfg o plan i).replanCount,
       (runStates cfg o plan i).current_plan,
       (runStates cfg o plan i).events ++
         [RunEvent.skipped (plan.subtasks.get ⟨i, h⟩).id]⟩ ∧
    (runPhase2 cfg o plan).events.get? i =
      some (RunEvent.skipped (plan.subtasks.get ⟨i, h⟩).id) := by
  have hall : ¬ ((plan.subtasks.get ⟨i, h⟩).dependencies.all
      (fun dep => decide (dep ∈ (runStates cfg o plan i).completed)) = true) := by
    intro hall
    exact hnc (of_decide_eq_true (List.all_eq_true.mp hall d hd))
  have hfirst : runStates cfg o plan (i + 1) =
      ⟨(runStates cfg o plan i).completed,
       (runStates cfg o plan i).step_evals,
       (runStates cfg o plan i).execCount,
       (runStates cfg o plan i).replanCount,
       (runStates cfg o plan i).current_plan,
       (runStates cfg o plan i).events ++
         [RunEvent.skipped (plan.subtasks.get ⟨i, h⟩).id]⟩ := by
    rw [runStates_succ cfg o plan i h]
    exact runStep_unmet cfg o (runStates cfg o plan i)
      (plan.subtasks.get ⟨i, h⟩) hall
  refine ⟨hfirst, ?_⟩
  have hpre := runFold_events_prefix cfg o (plan.subtasks.drop (i + 1))
    (runStates cfg o plan (i + 1))
  rw [← runPhase2_from cfg o plan (i + 1)] at hpre
  obtain ⟨t, ht⟩ := hpre
  have hlen : ((runStates cfg o plan i).events).length = i :=
    runStates_events_length cfg o plan i (Nat.le_of_lt h)
  rw [← ht, hfirst]
  show (((runStates cfg o plan i).events ++
    [RunEvent.skipped (plan.subtasks.get ⟨i, h⟩).id]) ++ t).get? i = _
  rw [List.get?_append (by rw [List.length_append, hlen]; simp)]
  have hcat := List.get?_concat_length ((runStates cfg o plan i).events)
    (RunEvent.skipped (plan.subtasks.get ⟨i, h⟩).id)
  rw [hlen] at hcat
  exact hcat

/-- Witness for C7: a plan whose only subtask depends on the absent id 2;
position 0 is skipped and stays skipped in the final record. -/
theorem run_unmet_dependency_skips_witness :
    runStates defaultCfg trivialOracles c7Plan 1 =
      ⟨[], [], 0, 0, c7Plan, [RunEvent.skipped 1]⟩ ∧
    (runPhase2 defaultCfg trivialOracles c7Plan).events.get? 0 =
      some (RunEvent.skipped 1) :=
  run_unmet_dependency_skips defaultCfg trivialOracles c7Plan 0 (by decide) 2
    (by decide) (by decide)

/-- C10: over one whole run, the completed list is exactly the list of ids
of the subtasks whose execution result carried success, in execution order;
skipped subtasks, failed subtasks and replans contribute nothing to it
(agent.py lines 210-211). -/
theorem run_completed_equals_successful_ids (cfg : RunConfig)
    (o : RunOracles) (plan : Plan) :
    (runPhase2 cfg o plan).completed =
      successIds (runPhase2 cfg o plan).events := by
  have key : ∀ (l : List SubTask) (st : LoopState),
      st.completed = successIds st.events →
      (l.foldl (runStep cfg o) st).completed =
        successIds (l.foldl (runStep cfg o) st).events := by
    intro l
    induction l with
    | nil => intro st h; exact h
    | cons s l ih =>
      intro st h
      simp only [List.foldl_cons]
      refine ih _ ?_
      unfold runStep
      by_cases hall : s.dependencies.all
          (fun dep => decide (dep ∈ st.completed)) = true
      · rw [if_pos hall]
        by_cases hs : (o.execResults st.execCount).success = true
        · rw [if_pos hs]
          show st.completed ++ [s.id] =
            successIds (st.events ++ [RunEvent.executed s.id true])
          rw [h, successIds_append, successIds_executed_true]
        · rw [if_neg hs]
          by_cases hr : cfg.allow_replanning = true
          · rw [if_pos hr]
            show st.completed =
              successIds (st.events ++ [RunEvent.executed s.id false])
            rw [h, successIds_append, successIds_executed_false,
                List.append_nil]
          · rw [if_neg hr]
            show st.completed =
              successIds (st.events ++ [RunEvent.executed s.id false])
            rw [h, successIds_append, successIds_executed_false,
                List.append_nil]
      · rw [if_neg hall]
        show st.completed = successIds (st.events ++ [RunEvent.skipped s.id])
        rw [h, successIds_append, successIds_skipped, List.append_nil]
  exact key plan.subtasks (initState plan) rfl

/-- C2 counterexample: replanning is enabled, the first subtask fails, the
replan oracle returns a plan holding only the fresh subtask 99.  The
current_plan attribute is replaced by the new plan, yet the iteration still
executes subtask 2 of the old plan, and no subtask of the new plan is ever
executed: the claim that iteration proceeds over the new plan is false. -/
theorem replan_new_plan_not_executed_cex :
    (runPhase2 c2Cfg c2Oracles c2Plan).current_plan = c2NewPlan ∧
    (runPhase2 c2Cfg c2Oracles c2Plan).events =
      [RunEvent.executed 1 false, RunEvent.executed 2 true] ∧
    (∀ b : Bool, RunEvent.executed 99 b ∉
      (runPhase2 c2Cfg c2Oracles c2Plan).events) := by
  refine ⟨rfl, rfl, ?_⟩
  decide

/-- C2 as amended: on a subtask failure with replanning enabled, the new
plan replaces the current_plan attribute (read afterwards for the final
output and persistence), but the iteration keeps walking the subtask
sequence of the plan captured at loop entry: the events of a run list the
original subtask ids in declaration order, whatever the replan oracle
returns (agent.py lines 172 and 222-230). -/
theorem run_iterates_original_plan_sequence (cfg : RunConfig)
    (o : RunOracles) (plan : Plan) :
    (runPhase2 cfg o plan).events.map eventId =
      plan.subtasks.map (fun s => s.id) ∧
    ∀ (st : LoopState) (s : SubTask),
      s.dependencies.all (fun dep => decide (dep ∈ st.completed)) = true →
      (o.execResults st.execCount).success = false →
      cfg.allow_replanning = true →
      (runStep cfg o st s).current_plan = o.replans st.replanCount := by
  constructor
  · have hmap := runFold_events_map cfg o plan.subtasks (initState plan)
    unfold runPhase2
    rw [hmap]
    simp [initState]
  · intro st s hall hs hr
    unfold runStep
    rw [if_pos hall, if_neg (by rw [hs]; exact Bool.false_ne_true), if_pos hr]

theorem except_bind_ok {α β : Type} (e : Except PyExc α)
    (f : α → Except PyExc β) (b : β) (h : e >>= f = .ok b) :
    ∃ a, e = .ok a ∧ f a = .ok b := by
  cases e with
  | error err => cases h
  | ok a => exact ⟨a, rfl, h⟩

theorem exceptGetD_ok {α : Type} (a : α) (d : α) :
    exceptGetD (.ok a) d = a := rfl

theorem planEntry_ok (idx : Nat) (task : PyVal) (s : SubTask)
    (h : planEntryToSubTask idx task = .ok s) :
    asInt (entryIdVal idx task) = .ok s.id ∧
    asIntList (entryDeps task) = .ok s.dependencies := by
  unfold planEntryToSubTask at h
  obtain ⟨d, hd, h⟩ := except_bind_ok _ _ _ h
  obtain ⟨i, hi, h⟩ := except_bind_ok _ _ _ h
  obtain ⟨de, hde, h⟩ := except_bind_ok _ _ _ h
  obtain ⟨re, hre, h⟩ := except_bind_ok _ _ _ h
  obtain ⟨deps, hdeps, h⟩ := except_bind_ok _ _ _ h
  injection h with h2
  rw [← h2]
  exact ⟨hi, hdeps⟩

theorem buildSubtasks_length :
    ∀ (idx : Nat) (ts : List PyVal) (ss : List SubTask),
    buildSubtasks idx ts = .ok ss → ss.length = ts.length := by
  intro idx ts
  induction ts generalizing idx with
  | nil =>
    intro ss h
    injection h with h2
    rw [← h2]
    rfl
  | cons t ts ih =>
    intro ss h
    unfold buildSubtasks at h
    cases ht : planEntryToSubTask idx t with
    | error e => rw [ht] at h; cases h
    | ok s0 =>
      rw [ht] at h
      cases hts : buildSubtasks (idx + 1) ts with
      | error e => rw [hts] at h; cases h
      | ok rest =>
        rw [hts] at h
        injection h with h2
        rw [← h2, List.length_cons, List.length_cons, ih (idx + 1) rest hts]

theorem buildSubtasks_idsInt :
    ∀ (idx : Nat) (ts : List PyVal) (ss : List SubTask),
    buildSubtasks idx ts = .ok ss →
    ss.map (fun s => s.id) = entryIdsInt idx ts := by
  intro idx ts
  induction ts generalizing idx with
  | nil =>
    intro ss h
    injection h with h2
    rw [← h2]
    rfl
  | cons t ts ih =>
    intro ss h
    unfold buildSubtasks at h
    cases ht : planEntryToSubTask idx t with
    | error e => rw [ht] at h; cases h
    | ok s0 =>
      rw [ht] at h
      cases hts : buildSubtasks (idx + 1) ts with
      | error e => rw [hts] at h; cases h
      | ok rest =>
        rw [hts] at h
        injection h with h2
        rw [← h2, List.map_cons]
        unfold entryIdsInt
        rw [ih (idx + 1) rest hts, (planEntry_ok idx t s0 ht).1, exceptGetD_ok]

theorem buildSubtasks_depsInt :
    ∀ (idx : Nat) (ts : List PyVal) (ss : List SubTask),
    buildSubtasks idx ts = .ok ss →
    ss.map (fun s => s.dependencies) = ts.map entryDepsInt := by
  intro idx ts
  induction ts generalizing idx with
  | nil =>
    intro ss h
    injection h with h2
    rw [← h2]
    rfl
  | cons t ts ih =>
    intro ss h
    unfold buildSubtasks at h
    cases ht : planEntryToSubTask idx t with
    | error e => rw [ht] at h; cases h
    | ok s0 =>
      rw [ht] at h
      cases hts : buildSubtasks (idx + 1) ts with
      | error e => rw [hts] at h; cases h
      | ok rest =>
        rw [hts] at h
        injection h with h2
        rw [← h2, List.map_cons, List.map_cons, ih (idx + 1) rest hts]
        have hdep : entryDepsInt t = s0.dependencies := by
          unfold entryDepsInt
          rw [(planEntry_ok idx t s0 ht).2, exceptGetD_ok]
        rw [hdep]

theorem forall_mem_map_eq {α β γ : Type} (f : α → List γ) (g : β → List γ)
    (la : List α) (lb : List β) (hmap : la.map f = lb.map g) (Q : γ → Prop) :
    (∀ a ∈ la, ∀ c ∈ f a, Q c) ↔ (∀ b ∈ lb, ∀ c ∈ g b, Q c) := by
  constructor
  · intro h b hb c hc
    have hgb : g b ∈ la.map f := by
      rw [hmap]
      exact List.mem_map_of_mem g hb
    obtain ⟨a, ha, hfa⟩ := List.mem_map.mp hgb
    refine h a ha c ?_
    rw [hfa]
    exact hc
  · intro h a ha c hc
    have hfa : f a ∈ lb.map g := by
      rw [← hmap]
      exact List.mem_map_of_mem f ha
    obtain ⟨b, hb, hgb⟩ := List.mem_map.mp hfa
    refine h b hb c ?_
    rw [hgb]
    exact hc

/-- C4 counterexample against the original claim: with max_subtasks 1, a
parsed response carrying two entries (one defaulting to id 1, the other
declaring id 1, the first depending on the absent id 5) produces a plan
with two subtasks, duplicate ids and a dangling dependency: create_plan
enforces none of the claimed invariants.  The last two conjuncts show the
pydantic coercion edge: the entry id values string-two and int-two are
distinct payload values, yet both coerce to the id 2, so the produced plan
has duplicate ids. -/
theorem create_plan_invariants_cex :
    create_plan 1 ("goal") ("t") (.ok c4BadResp) = .ok c4BadPlan ∧
    ¬ planInvariants 1 c4BadPlan ∧
    create_plan 20 ("goal") ("t") (.ok c4CoerceResp) = .ok c4CoercePlan ∧
    ¬ planInvariants 20 c4CoercePlan := by
  refine ⟨rfl, by decide, rfl, by decide⟩

/-- C4 as amended: create_plan keeps exactly one subtask per parsed entry
(no truncation, no deduplication, no dependency check), the subtask ids and
dependencies being the pydantic-coerced entry values; so the plan satisfies
the invariant bundle exactly when the coerced entries already do: entry
count at most max_subtasks, coerced ids pairwise distinct, every coerced
dependency among the coerced ids. -/
theorem create_plan_invariants_conditional (m : Nat) (g t : String)
    (v : PyVal) (p : Plan)
    (hok : create_plan m g t (.ok v) = .ok p) :
    p.subtasks.length = (subtaskEntries v).length ∧
    (planInvariants m p ↔
      ((subtaskEntries v).length ≤ m ∧
       (entryIdsInt 0 (subtaskEntries v)).Nodup ∧
       ∀ task ∈ subtaskEntries v, ∀ d ∈ entryDepsInt task,
         d ∈ entryIdsInt 0 (subtaskEntries v))) := by
  cases v with
  | dict kvs =>
    unfold create_plan at hok
    simp only [] at hok
    cases hit : pyIter (dictGetD (.dict kvs) keySubtasks (.list [])) with
    | ok tasks =>
      rw [hit] at hok
      simp only [] at hok
      have hentries : subtaskEntries (.dict kvs) = tasks := by
        unfold subtaskEntries
        rw [hit, exceptGetD_ok]
      cases hb : buildSubtasks 0 tasks with
      | error e =>
        rw [hb] at hok
        cases e <;> simp only [] at hok <;> cases hok
      | ok subtasks =>
        rw [hb] at hok
        simp only [] at hok
        cases hstrat : asStr (dictGetD (.dict kvs) keyStrategy (.str "")) with
        | error e => rw [hstrat] at hok; simp only [] at hok; cases hok
        | ok strat =>
          rw [hstrat] at hok
          simp only [] at hok
          injection hok with h2
          rw [← h2, hentries]
          have hlen : subtasks.length = tasks.length :=
            buildSubtasks_length 0 tasks subtasks hb
          have hids : subtasks.map (fun s => s.id) = entryIdsInt 0 tasks :=
            buildSubtasks_idsInt 0 tasks subtasks hb
          have hdeps : subtasks.map (fun s => s.dependencies) =
              tasks.map entryDepsInt :=
            buildSubtasks_depsInt 0 tasks subtasks hb
          have hplanIds : planIds ⟨g, subtasks, strat, t⟩ = entryIdsInt 0 tasks := by
            unfold planIds
            exact hids
          refine ⟨hlen, ?_⟩
          unfold planInvariants
          rw [hplanIds]
          show (subtasks.length ≤ m ∧ _ ∧ _) ↔ _
          rw [hlen]
          constructor
          · rintro ⟨h1, h3, h4⟩
            exact ⟨h1, h3,
              (forall_mem_map_eq (fun s => s.dependencies) entryDepsInt
                subtasks tasks hdeps _).mp h4⟩
          · rintro ⟨h1, h3, h4⟩
            exact ⟨h1, h3,
              (forall_mem_map_eq (fun s => s.dependencies) entryDepsInt
                subtasks tasks hdeps _).mpr h4⟩
    | error e =>
      rw [hit] at hok
      simp only [] at hok
      cases hok
  | none => cases hok
  | bool b => cases hok
  | int n => cases hok
  | str t2 => cases hok
  | list xs => cases hok

/-- Witness for the amended C4 at a well-formed two-entry response. -/
theorem create_plan_invariants_conditional_witness :
    c4GoodPlan.subtasks.length = (subtaskEntries c4GoodResp).length ∧
    (planInvariants 20 c4GoodPlan ↔
      ((subtaskEntries c4GoodResp).length ≤ 20 ∧
       (entryIdsInt 0 (subtaskEntries c4GoodResp)).Nodup ∧
       ∀ task ∈ subtaskEntries c4GoodResp, ∀ d ∈ entryDepsInt task,
         d ∈ entryIdsInt 0 (subtaskEntries c4GoodResp))) :=
  create_plan_invariants_conditional 20 ("goal") ("t") c4GoodResp
    c4GoodPlan rfl

end AgentCore
